import Mathlib

/-!
Shallow embedding of `src/keystore/sdcard.py` (class `SDKeyStore`) from the
specter-diy repository, together with theorems settling the claims about it.

Modelling conventions:
* Python strings are Lean `String`s; Python byte strings (file blobs, keys,
  hashes) are `List Nat` (one `Nat` per byte).
* The filesystem is an association list from full path strings to blobs.
* The device/session state mutated by the methods (`self.*` attributes and
  the `platform` module's mount flag) is the record `St`; constants and the
  external collaborators (`tagged_hash`, the AEAD primitive `save_aead` /
  `load_aead`, `os.remove` failure behaviour) live in `Env`.
* `async` methods awaiting user decisions become functions taking the user's
  answers as explicit arguments (menu choice, text input, prompt answer).
* A Python function that may raise `KeyStoreError` returns `Res α`;
  `Res.err msg` is a raised error, `Res.ok v` a normal return.  Python's
  `True` / `False` / `None` return values become
  `some true` / `some false` / `none : Option Bool`.
-/

namespace SDKeyStore

/-- Byte strings (Python `bytes`). -/
abbrev Bytes := List Nat

/-- Result of a Python call: a normal return value or a raised error
(`KeyStoreError(msg)` and similar). -/
inductive Res (α : Type) where
  | ok : α → Res α
  | err : String → Res α
deriving DecidableEq, Repr

/-- The two storage media of `get_keypath`'s menu. -/
inductive Media where
  | flash
  | sd
deriving DecidableEq, Repr

/-- A Python string object used as a storage path: its string value plus an
object-identity flag recording whether it is the very `self.flashpath`
object (Python `is` compares identity, not value, and `fileprefix` uses
`path is self.flashpath`).  `isFlashObj = true` forces `value = flashpath`
in all states we build, but a distinct, value-equal string has
`isFlashObj = false`. -/
structure PathObj where
  value : String
  isFlashObj : Bool
deriving DecidableEq, Repr

/-- External collaborators and per-session constants of `SDKeyStore`:
paths, the secrets, `helpers.tagged_hash`, the AEAD primitive used by
`save_aead`/`load_aead` (absorbing Python's `str.encode`/`bytes.decode`,
so the plaintext side is a `String`), and which paths `os.remove` fails on. -/
structure Env where
  flashpath : String
  sdpath : String
  secret : Bytes
  encSecret : Bytes
  taggedHash : String → Bytes → Bytes
  encrypt : Bytes → String → Bytes
  decrypt : Bytes → Bytes → Option String
  removeFails : String → Bool

/-- Mutable device/session state: the files on flash and SD (full path ↦
blob), the SD mount flag and presence flag, the lock flag, and the
in-memory mnemonic and passphrase managed by `set_mnemonic`. -/
structure St where
  fs : List (String × Bytes)
  mounted : Bool
  sdPresent : Bool
  locked : Bool
  mnemonic : Option String
  passphrase : String
deriving DecidableEq, Repr

/-! Section: Filesystem primitives (the `platform` / `os` collaborators) -/

/-- Look up the blob stored at path `p`. -/
def fsGet (fs : List (String × Bytes)) (p : String) : Option Bytes :=
  match fs with
  | [] => none
  | (k, v) :: t => if k = p then some v else fsGet t p

/-- Write blob `b` at path `p` (overwriting an existing file). -/
def fsSet (fs : List (String × Bytes)) (p : String) (b : Bytes) : List (String × Bytes) :=
  match fs with
  | [] => [(p, b)]
  | (k, v) :: t => if k = p then (p, b) :: t else (k, v) :: fsSet t p b

/-- Remove the file at path `p` (`os.remove`). -/
def fsRemove (fs : List (String × Bytes)) (p : String) : List (String × Bytes) :=
  match fs with
  | [] => []
  | (k, v) :: t => if k = p then fsRemove t p else (k, v) :: fsRemove t p

/-- `platform.file_exists` as used by `save_mnemonic` (line 76),
`load_mnemonic` (line 123) and `delete_mnemonic` (line 169): all three call
it on a full record path, so it is record lookup success. -/
def file_exists (fs : List (String × Bytes)) (p : String) : Bool :=
  (fsGet fs p).isSome

/-! Section: String helpers (Python `str` operations, spelled out on `List Char`
so that every proof obligation reduces in the kernel) -/

/-- List-level `str.startswith`. -/
def startsWithL : List Char → List Char → Bool
  | _, [] => true
  | [], _ :: _ => false
  | c :: s, d :: p => if c = d then startsWithL s p else false

/-- Python `s.startswith(pfx)`. -/
def pyStartsWith (s pfx : String) : Bool :=
  startsWithL s.data pfx.data

/-- Python `s[n:]` (drop the first `n` characters). -/
def strDrop (s : String) (n : Nat) : String :=
  ⟨s.data.drop n⟩

/-- Fuelled worker for `pyRemoveAll`: scan left to right, removing each
non-overlapping occurrence of `pat`.  The fuel starts at the length of the
string; each step consumes at least one character when `pat` is nonempty,
so the fuel never runs out on the initial call. -/
def removeAllFuel (pat : List Char) : Nat → List Char → List Char
  | _, [] => []
  | 0, s => s
  | n + 1, c :: rest =>
    if pat ≠ [] ∧ startsWithL (c :: rest) pat = true then
      removeAllFuel pat n ((c :: rest).drop pat.length)
    else
      c :: removeAllFuel pat n rest

/-- Python `s.replace(pat, "")`: remove every (non-overlapping, leftmost)
occurrence of `pat` from `s`. -/
def pyRemoveAll (s pat : String) : String :=
  ⟨removeAllFuel pat.data s.data.length s.data⟩

/-- Lowercase hex digit for a value below 16. -/
def hexDigit (n : Nat) : Char :=
  if n < 10 then Char.ofNat (48 + n) else Char.ofNat (87 + n)

/-- Two lowercase hex digits of one byte. -/
def byteHex (b : Nat) : String :=
  ⟨[hexDigit ((b / 16) % 16), hexDigit (b % 16)]⟩

/-- `binascii.hexlify(bs).decode()`: lowercase hex encoding of a byte
string. -/
def hexlify (bs : Bytes) : String :=
  String.join (bs.map byteHex)

/-! Section: Stable insertion sort (Python `list.sort`) -/

/-- Insert `a` into `l` before the first element `b` with `le a b`
(stable insertion). -/
def insertLe {α : Type} (le : α → α → Bool) (a : α) : List α → List α
  | [] => [a]
  | b :: t => if le a b then a :: b :: t else b :: insertLe le a t

/-- Stable insertion sort by the boolean relation `le`.  For a total
preorder `le` this agrees with Python's stable `list.sort()`. -/
def sortLe {α : Type} (le : α → α → Bool) : List α → List α
  | [] => []
  | a :: t => insertLe le a (sortLe le t)

/-- Adjacent-pairs sortedness check. -/
def chainLe {α : Type} (le : α → α → Bool) : List α → Bool
  | [] => true
  | [_] => true
  | a :: b :: t => le a b && chainLe le (b :: t)

/-- Python's comparison on the two-element lists `[filename, displayname]`
built by `select_file`: lexicographic order on the pair of strings. -/
def pairLe (a b : String × String) : Bool :=
  if a.1 < b.1 then true
  else if a.1 = b.1 then (if b.2 < a.2 then false else true)
  else false

/-! Section: The `SDKeyStore` methods (source lines 36–179, 192–238) -/

/-- `SDKeyStore.fileprefix` (lines 36–41):

    if path is self.flashpath: return 'reckless'
    hexid = hexlify(tagged_hash("sdid", self.secret)[:4]).decode()
    return "specterdiy%s" % hexid

Note the `is`: the fixed literal is returned only when `path` is the
identical `self.flashpath` object. -/
def fileprefix (env : Env) (path : PathObj) : String :=
  if path.isFlashObj then "reckless"
  else "specterdiy" ++ hexlify ((env.taggedHash "sdid" env.secret).take 4)

/-- Modelled from the spec: the claim C6 / spec §4.2 + §9 contract for
`prefixFor`, which demands ordinary value equality of the path with the
internal flash path ("no observable behavior should depend on reference
identity").  Kept separate from ` fileprefix` (the source function) so the
two can be compared. -/
def fileprefixByValue (env : Env) (pathValue : String) : String :=
  if pathValue = env.flashpath then "reckless"
  else "specterdiy" ++ hexlify ((env.taggedHash "sdid" env.secret).take 4)

/-- `SDKeyStore.get_keypath` (lines 43–58).  The enable flags only govern
which menu buttons can be pressed; the user's selection is the `choice`
argument.  When an SD card is present the method mounts and then
unconditionally unmounts it while probing `file_exists(self.sdpath)`, so it
returns with `mounted := false`.  The flash button carries the
`self.flashpath` object itself (identity flag `true`); the SD button
carries the `self.sdpath` property value (a fresh string, flag `false`). -/
def get_keypath (env : Env) (st : St) (only_if_exist : Bool) (choice : Option Media) :
    Option PathObj × St :=
  let st' := if st.sdPresent = true then { st with mounted := false } else st
  match only_if_exist, choice with
  | _, some Media.flash => (some { value := env.flashpath, isFlashObj := true }, st')
  | _, some Media.sd => (some { value := env.sdpath, isFlashObj := false }, st')
  | _, none => (none, st')

/-- Lines 71–74 / 112–115 / 160–163, shared by save, load and delete:

    if path == self.sdpath:
        if not platform.is_sd_present():
            raise KeyStoreError("SD card is not present")
        platform.mount_sdcard()
-/
def mountIfSD (env : Env) (st : St) (pv : String) : Res Unit × St :=
  if pv = env.sdpath then
    if st.sdPresent = false then (Res.err "SD card is not present", st)
    else (Res.ok (), { st with mounted := true })
  else (Res.ok (), st)

/-- Lines 87–88 / 127–128 / 177–178:
`if path == self.sdpath: platform.unmount_sdcard()`. -/
def unmountIfSD (env : Env) (st : St) (pv : String) : St :=
  if pv = env.sdpath then { st with mounted := false } else st

/-- The label (`displayname`) computed by `select_file` (lines 137–141):

    displayname = file[0].replace(prefix, "")
    if displayname is "":
        displayname = "Default"
    else:
        displayname = displayname[1:]  # strip first character

`str.replace` removes every occurrence of `prefix`, not just the leading
one.  (The `is ""` identity test coincides with value equality because the
empty string is interned.) -/
def displaynameOf (pfx fname : String) : String :=
  let d := pyRemoveAll fname pfx
  if d = "" then "Default" else strDrop d 1

/-- `os.ilistdir(path)` restricted to our flat association-list filesystem:
the names of the files directly under directory `dir`. -/
def ilistdir (fs : List (String × Bytes)) (dir : String) : List String :=
  fs.filterMap fun kv =>
    if pyStartsWith kv.1 (dir ++ "/") = true then some (strDrop kv.1 (dir.length + 1))
    else none

/-- The `(filename, displayname)` button list that `select_file`
(lines 133–150) builds and presents: directory entries whose name starts
with the prefix, labelled by `displaynameOf`, sorted by Python
`list.sort()` on the `[filename, displayname]` pairs. -/
def select_file_entries (listing : List String) (pfx : String) : List (String × String) :=
  sortLe pairLe (((listing.filter fun f => pyStartsWith f pfx).map fun f =>
    (f, displaynameOf pfx f)))

/-- Modelled from the spec: `listRecords` of §4.3 / claim C5, whose label
is "the remainder after the prefix (stripping one separator character) or
the literal \"Default\" when the remainder is empty".  Kept separate from
`select_file_entries` (the source behaviour) so the two can be compared. -/
def listRecordsSpec (listing : List String) (pfx : String) : List (String × String) :=
  sortLe pairLe (((listing.filter fun f => pyStartsWith f pfx).map fun f =>
    (f, (if strDrop f pfx.length = "" then "Default" else strDrop (strDrop f pfx.length) 1))))

/-- `SDKeyStore.select_file` (lines 132–153): raises
`KeyStoreError("\n\nNo matching files found")` when no entry matches the
prefix, otherwise presents the sorted `select_file_entries` menu and
returns the user's selection `choice` (a filename, or `none` for Cancel).
The state is not modified. -/
def select_file (fs : List (String × Bytes)) (dir pfx : String) (choice : Option String) :
    Res (Option String) :=
  if (ilistdir fs dir).filter (fun f => pyStartsWith f pfx) = [] then
    Res.err "\n\nNo matching files found"
  else Res.ok choice

/-- Lines 122–130 of `load_mnemonic`, after path and file are resolved:

    if not platform.file_exists("%s/%s" % (path, file)):
        raise KeyStoreError("Key is not saved")
    _, data = self.load_aead("%s/%s" % (path, file), self.enc_secret)
    if path == self.sdpath:
        platform.unmount_sdcard()
    self.set_mnemonic(data.decode(), "")
    return True

`load_aead` (from the parent class, not under `src/`) is modelled from the
spec as: read the blob and decrypt it with the authenticated primitive,
raising on a read failure or an authentication failure. -/
def load_mnemonic_file (env : Env) (st : St) (p : PathObj) (file : String) :
    Res (Option Bool) × St :=
  if file_exists st.fs (p.value ++ "/" ++ file) = false then (Res.err "Key is not saved", st)
  else
    match fsGet st.fs (p.value ++ "/" ++ file) with
    | none => (Res.err "Storage read error", st)
    | some blob =>
      match env.decrypt env.encSecret blob with
      | none => (Res.err "Decryption failed", st)
      | some data =>
        let st₂ := unmountIfSD env st p.value
        (Res.ok (some true), { st₂ with mnemonic := some data, passphrase := "" })

/-- `SDKeyStore.load_mnemonic` (lines 103–130).  `pathArg`/`fileArg` are
the Python keyword arguments; `keypathChoice` is the user's media choice
when `pathArg` is `none`; `fileChoice` the user's file selection when
`fileArg` is `none`. -/
def load_mnemonic (env : Env) (st : St) (pathArg : Option PathObj)
    (keypathChoice : Option Media) (fileArg fileChoice : Option String) :
    Res (Option Bool) × St :=
  if st.locked = true then (Res.err "Keystore is locked", st)
  else
    match (match pathArg with
           | some p => (some p, st)
           | none => get_keypath env st true keypathChoice) with
    | (none, st₁) => (Res.ok (some false), st₁)
    | (some p, st₁) =>
      match mountIfSD env st₁ p.value with
      | (Res.err e, st₂) => (Res.err e, st₂)
      | (Res.ok _, st₂) =>
        match (match fileArg with
               | some f => Res.ok (some f)
               | none => select_file st₂.fs p.value ( fileprefix env p) fileChoice) with
        | Res.err e => (Res.err e, st₂)
        | Res.ok none => (Res.ok (some false), st₂)
        | Res.ok (some f) => load_mnemonic_file env st₂ p f

/-- Lines 85–91 of `save_mnemonic`, after the overwrite guard: write the
blob with `save_aead`, unmount an SD path, then verify by re-loading the
just-written file (a raised error from the re-load propagates):

    self.save_aead(..., plaintext=self.mnemonic.encode(), key=self.enc_secret)
    if path == self.sdpath:
        platform.unmount_sdcard()
    # check it's ok
    await self.load_mnemonic(path, "%s.%s" % (self.fileprefix(path), filename))
    return True
-/
def save_write (env : Env) (st : St) (p : PathObj) (filename m : String) :
    Res (Option Bool) × St :=
  let tgt := p.value ++ "/" ++ (( fileprefix env p) ++ "." ++ filename)
  let st₃ := { st with fs := fsSet st.fs tgt (env.encrypt env.encSecret m) }
  let st₄ := unmountIfSD env st₃ p.value
  match load_mnemonic env st₄ (some p) none (some (( fileprefix env p) ++ "." ++ filename))
      none with
  | (Res.err e, st₅) => (Res.err e, st₅)
  | (Res.ok _, st₅) => (Res.ok (some true), st₅)

/-- `SDKeyStore.save_mnemonic` (lines 60–91).  `overwrite` is the user's
answer to the overwrite prompt (consulted only when the target file already
exists; answering `false` returns Python `None`). -/
def save_mnemonic (env : Env) (st : St) (filename : String) (pathArg : Option PathObj)
    (keypathChoice : Option Media) (overwrite : Bool) : Res (Option Bool) × St :=
  if st.locked = true then (Res.err "Keystore is locked", st)
  else
    match st.mnemonic with
    | none => (Res.err "Recovery phrase is not loaded", st)
    | some m =>
      match (match pathArg with
             | some p => (some p, st)
             | none => get_keypath env st false keypathChoice) with
      | (none, st₁) => (Res.ok (some false), st₁)
      | (some p, st₁) =>
        match mountIfSD env st₁ p.value with
        | (Res.err e, st₂) => (Res.err e, st₂)
        | (Res.ok _, st₂) =>
          if file_exists st₂.fs (p.value ++ "/" ++ (( fileprefix env p) ++ "." ++ filename))
                = true
              ∧ overwrite = false then
            (Res.ok none, st₂)
          else save_write env st₂ p filename m

/-- `SDKeyStore.delete_mnemonic` (lines 155–179).  Note the source's

    try:
        os.remove("%s/%s" % (path, file))
    except Exception as e:
        print(e)
        raise KeyStoreError("Failed to delete file '%s' from %s" % (file, path))
    finally:
        if path == self.sdpath:
            platform.unmount_sdcard()
        return True

the `return True` inside `finally` runs after the `except` clause raised
`KeyStoreError` and discards that exception (Python semantics: a `return`
in a `finally` block swallows any in-flight exception), so the method
returns `True` whether or not `os.remove` failed.  The filesystem is
changed only when the removal actually succeeded. -/
def delete_mnemonic (env : Env) (st : St) (pathArg : Option PathObj)
    (keypathChoice : Option Media) (fileChoice : Option String) : Res (Option Bool) × St :=
  match (match pathArg with
         | some p => (some p, st)
         | none => get_keypath env st true keypathChoice) with
  | (none, st₁) => (Res.ok (some false), st₁)
  | (some p, st₁) =>
    match mountIfSD env st₁ p.value with
    | (Res.err e, st₂) => (Res.err e, st₂)
    | (Res.ok _, st₂) =>
      match select_file st₂.fs p.value ( fileprefix env p) fileChoice with
      | Res.err e => (Res.err e, st₂)
      | Res.ok none => (Res.ok (some false), st₂)
      | Res.ok (some f) =>
        if file_exists st₂.fs (p.value ++ "/" ++ f) = false then
          (Res.err "File not found.", st₂)
        else
          let fs' :=
            if env.removeFails (p.value ++ "/" ++ f) = true then st₂.fs
            else fsRemove st₂.fs (p.value ++ "/" ++ f)
          (Res.ok (some true), unmountIfSD env { st₂ with fs := fs' } p.value)

/-! Section: The storage menu (lines 192–238) -/

/-- The user decisions consumed by one pass through the `storage_menu`
loop body. -/
structure IterIn where
  menuitem : Nat
  nameInput : Option String
  keypathChoice : Option Media
  fileChoice : Option String
  overwrite : Bool
deriving DecidableEq, Repr

/-- The alert shown for an empty save name (lines 217–219). -/
def invalid_name_alert : String × String :=
  ("Error!", "Please provide a valid name!\n\nYour file has NOT been saved.")

/-- One pass through the body of `SDKeyStore.storage_menu`'s `while True`
loop (lines 205–238).  Result components: the outcome (`Res.err e` when an
uncaught `KeyStoreError` propagates out of `storage_menu`), whether the
loop terminates after this pass (`return` or a propagating exception), the
alerts shown, and the final state.  `show_mnemonic` (menu item 3, from the
parent class, not under `src/`) is modelled from the spec as a pure display
with no state change. -/
def storage_menu_iter (env : Env) (st : St) (i : IterIn) :
    Res Unit × Bool × List (String × String) × St :=
  if i.menuitem = 255 then (Res.ok (), true, [], st)
  else if i.menuitem = 0 then
    match i.nameInput with
    | none => (Res.ok (), true, [], st)
    | some fn =>
      if fn = "" then (Res.ok (), true, [invalid_name_alert], st)
      else
        match save_mnemonic env st fn none i.keypathChoice i.overwrite with
        | (Res.err e, st') => (Res.err e, true, [], st')
        | (Res.ok (some true), st') =>
          (Res.ok (), false, [("Success!", "Your key is stored now.\n\nName: " ++ fn)], st')
        | (Res.ok _, st') => (Res.ok (), false, [], st')
  else if i.menuitem = 1 then
    match load_mnemonic env st none i.keypathChoice none i.fileChoice with
    | (Res.err e, st') => (Res.err e, true, [], st')
    | (Res.ok (some true), st') =>
      (Res.ok (), false, [("Success!", "Your key is loaded.")], st')
    | (Res.ok _, st') => (Res.ok (), false, [], st')
  else if i.menuitem = 2 then
    match delete_mnemonic env st none i.keypathChoice i.fileChoice with
    | (Res.err e, st') => (Res.err e, true, [], st')
    | (Res.ok (some true), st') =>
      (Res.ok (), false, [("Success!", "Your key is deleted.")], st')
    | (Res.ok _, st') => (Res.ok (), false, [], st')
  else if i.menuitem = 3 then (Res.ok (), false, [], st)
  else (Res.ok (), false, [], st)

/-! Section: Concrete fixtures used by the closed theorems and witnesses -/

/-- A concrete environment: flash root `/flash`, SD root `/sd`, a tagged
hash whose first four bytes are `00 01 02 03` (so the SD prefix is
`specterdiy00010203`), a trivially invertible AEAD (byte values of the
plaintext characters), and `os.remove` failing exactly on
`/flash/reckless.alice`. -/
def envC : Env where
  flashpath := "/flash"
  sdpath := "/sd"
  secret := [7]
  encSecret := [9]
  taggedHash := fun _ _ => [0, 1, 2, 3, 99]
  encrypt := fun _ m => m.data.map Char.toNat
  decrypt := fun _ b => some ⟨b.map Char.ofNat⟩
  removeFails := fun p => decide (p = "/flash/reckless.alice")

/-- An unlocked state with two flash records and no SD card. -/
def stFlash : St where
  fs := [("/flash/reckless.alice", [97]), ("/flash/reckless.bob", [98])]
  mounted := false
  sdPresent := true
  locked := false
  mnemonic := some "abandon ability"
  passphrase := "pp"

/-- An unlocked state with one SD record, card present, card not mounted. -/
def stSD : St where
  fs := [("/sd/specterdiy00010203.alice", [99])]
  mounted := false
  sdPresent := true
  locked := false
  mnemonic := some "abandon ability"
  passphrase := "pp"

/-- A locked state with one flash record. -/
def stLocked : St where
  fs := [("/flash/reckless.bob", [98])]
  mounted := false
  sdPresent := false
  locked := true
  mnemonic := none
  passphrase := ""

/-! Section: Helper lemmas -/

theorem fsGet_fsSet (fs : List (String × Bytes)) (p : String) (b : Bytes) :
    fsGet (fsSet fs p b) p = some b := by
  induction fs with
  | nil => simp [fsSet, fsGet]
  | cons kv t ih =>
    obtain ⟨k, v⟩ := kv
    by_cases h : k = p
    · simp [fsSet, fsGet, h]
    · simp [fsSet, fsGet, h, ih]

theorem file_exists_fsSet (fs : List (String × Bytes)) (p : String) (b : Bytes) :
    file_exists (fsSet fs p b) p = true := by
  simp [file_exists, fsGet_fsSet]

theorem mem_insertLe {α : Type} (le : α → α → Bool) (a x : α) (l : List α) :
    x ∈ insertLe le a l ↔ x = a ∨ x ∈ l := by
  induction l with
  | nil => simp [insertLe]
  | cons b t ih =>
    by_cases h : le a b = true
    · simp [insertLe, h, List.mem_cons]
    · simp only [insertLe, h, if_neg, Bool.not_eq_true] at *
      simp [List.mem_cons, ih]
      tauto

theorem mem_sortLe {α : Type} (le : α → α → Bool) (x : α) (l : List α) :
    x ∈ sortLe le l ↔ x ∈ l := by
  induction l with
  | nil => simp [sortLe]
  | cons a t ih => simp [sortLe, mem_insertLe, ih, List.mem_cons]

theorem chainLe_insertLe {α : Type} (le : α → α → Bool)
    (htot : ∀ a b, le a b = true ∨ le b a = true) (a : α) (l : List α)
    (h : chainLe le l = true) : chainLe le (insertLe le a l) = true := by
  induction l with
  | nil => simp [insertLe, chainLe]
  | cons b t ih =>
    by_cases hab : le a b = true
    · simpa [insertLe, hab, chainLe] using h
    · have hba : le b a = true := (htot a b).resolve_left hab
      cases t with
      | nil => simp [insertLe, hab, chainLe, hba]
      | cons c t' =>
        have hbc : le b c = true := by
          simp [chainLe] at h
          exact h.1
        have hchain : chainLe le (c :: t') = true := by
          simp [chainLe] at h ⊢
          exact h.2
        have ih' := ih hchain
        by_cases hac : le a c = true
        · simpa [insertLe, hab, hac, chainLe, hba] using ih'
        · simpa [insertLe, hab, hac, chainLe, hbc] using ih'

theorem chainLe_sortLe {α : Type} (le : α → α → Bool)
    (htot : ∀ a b, le a b = true ∨ le b a = true) (l : List α) :
    chainLe le (sortLe le l) = true := by
  induction l with
  | nil => simp [sortLe, chainLe]
  | cons a t ih => exact chainLe_insertLe le htot a (sortLe le t) ih

theorem pairLe_total (a b : String × String) : pairLe a b = true ∨ pairLe b a = true := by
  obtain ⟨a1, a2⟩ := a
  obtain ⟨b1, b2⟩ := b
  rcases lt_trichotomy a1 b1 with h | h | h
  · left; simp [pairLe, h]
  · subst h
    by_cases h2 : b2 < a2
    · right
      have : ¬ a2 < b2 := lt_asymm h2
      simp [pairLe, this, lt_irrefl]
    · left; simp [pairLe, h2, lt_irrefl]
  · right; simp [pairLe, h]

/-! Section: Claim theorems -/

/-- C1: evaluation of the code at the failing input.  In `envC`,
`os.remove` on `/flash/reckless.alice` raises, yet `delete_mnemonic`
returns Python `True` (a successful delete) and leaves the file in place:
the `return True` in the `finally` block swallows the `KeyStoreError`
raised by the `except` clause.  The failed removal is therefore reported
as a successful delete, contradicting the claim (the spec itself flags
this source defect in §9). -/
theorem delete_reports_success_on_remove_failure :
    envC.removeFails "/flash/reckless.alice" = true ∧
    delete_mnemonic envC stFlash (some { value := "/flash", isFlashObj := true }) none
        (some "reckless.alice")
      = (Res.ok (some true), stFlash) := by
  constructor
  · decide
  · decide

/-- C2: evaluation of the code at the failing input.  `load_mnemonic` on
the SD root with the card present and a matching record, where the user
cancels the file-selection menu, returns `False` (cancellation) with the
card STILL MOUNTED: the unmount at line 127 runs only on the success path,
so cancellation (and any raised error after the mount) leaves the card
mounted, contradicting the claim that every outcome unmounts the card. -/
theorem load_cancel_leaves_sd_mounted :
    stSD.mounted = false ∧
    load_mnemonic envC stSD (some { value := "/sd", isFlashObj := false }) none none none
      = (Res.ok (some false), { stSD with mounted := true }) := by
  constructor
  · decide
  · decide

/-- C6: evaluation of the code at the failing input.  `fileprefix` decides
with Python `is` (object identity): for a path string that is value-equal
to `self.flashpath` but a distinct object it returns the
`specterdiy<hex4>` prefix, while the claim's value-equality contract
(`fileprefixByValue`, spec §4.2 with the §9 correction) returns
`"reckless"`.  The result therefore depends on the object identity of the
path argument, contradicting the claim. -/
theorem fileprefix_identity_not_value :
    fileprefix envC { value := envC.flashpath, isFlashObj := false } = "specterdiy00010203" ∧
    fileprefixByValue envC envC.flashpath = "reckless" ∧
    fileprefix envC { value := envC.flashpath, isFlashObj := true } = "reckless" ∧
    ("specterdiy00010203" : String) ≠ "reckless" := by
  refine ⟨by decide, by decide, by decide, by decide⟩

/-- C8 (counterexample): with the keystore locked, `delete_mnemonic` does
not fail with the `KeystoreLocked` error — it has no lock check at all
(lines 155–163) — and here it even removes a file while locked. -/
theorem delete_ignores_lock :
    stLocked.locked = true ∧
    delete_mnemonic envC stLocked (some { value := "/flash", isFlashObj := true }) none
        (some "reckless.bob")
      = (Res.ok (some true), { stLocked with fs := [] }) := by
  constructor
  · decide
  · decide

/-- C8 (amended): `save_mnemonic` and `load_mnemonic` fail with
`KeyStoreError("Keystore is locked")` when the keystore is locked, before
any media mount or file side effect (the state is returned unchanged);
`delete_mnemonic` performs no such check (see `delete_ignores_lock`). -/
theorem locked_check_save_load (env : Env) (st : St) (h : st.locked = true) :
    (∀ fn pa kc ow, save_mnemonic env st fn pa kc ow = (Res.err "Keystore is locked", st)) ∧
    (∀ pa kc fa fc, load_mnemonic env st pa kc fa fc = (Res.err "Keystore is locked", st)) := by
  refine ⟨fun fn pa kc ow => ?_, fun pa kc fa fc => ?_⟩
  · simp [save_mnemonic, h]
  · simp [load_mnemonic, h]

/-- C8 (witness for `locked_check_save_load`): concrete locked state. -/
theorem locked_check_save_load_witness :
    save_mnemonic envC stLocked "alice" none none false
        = (Res.err "Keystore is locked", stLocked) ∧
    load_mnemonic envC stLocked none none none none
        = (Res.err "Keystore is locked", stLocked) :=
  ⟨(locked_check_save_load envC stLocked (by decide)).1 "alice" none none false,
   (locked_check_save_load envC stLocked (by decide)).2 none none none none⟩

/-- C9 (counterexample): after the user enters an empty name for Save
(menu item 0, not the Back button 255), `storage_menu` shows the
invalid-name alert and then `return`s — the loop terminates even though
the user did not press Back, contradicting "control returns to the Idle
storage menu" and "the menu loop terminates only when the user explicitly
presses Back". -/
theorem menu_exits_after_empty_name :
    storage_menu_iter envC stFlash
        { menuitem := 0, nameInput := some "", keypathChoice := none, fileChoice := none,
          overwrite := false }
      = (Res.ok (), true, [invalid_name_alert], stFlash) ∧
    ({ menuitem := 0, nameInput := some "", keypathChoice := none, fileChoice := none,
       overwrite := false : IterIn }).menuitem ≠ 255 := by
  constructor
  · decide
  · decide

/-- C9 (amended): when the user enters an empty name for Save, the
workflow shows the invalid-name error alert and creates no file (the whole
state, including the filesystem, is unchanged) — but it then exits the
storage menu (the loop also terminates here, not only on Back). -/
theorem empty_name_error_no_file_and_exit (env : Env) (st : St) (i : IterIn)
    (h0 : i.menuitem = 0) (hn : i.nameInput = some "") :
    storage_menu_iter env st i = (Res.ok (), true, [invalid_name_alert], st) := by
  simp [storage_menu_iter, h0, hn]

/-- C9 (witness for `empty_name_error_no_file_and_exit`). -/
theorem empty_name_error_no_file_and_exit_witness :
    storage_menu_iter envC stSD
        { menuitem := 0, nameInput := some "", keypathChoice := none, fileChoice := none,
          overwrite := false }
      = (Res.ok (), true, [invalid_name_alert], stSD) :=
  empty_name_error_no_file_and_exit envC stSD
    { menuitem := 0, nameInput := some "", keypathChoice := none, fileChoice := none,
      overwrite := false } (by decide) (by decide)

/-- C5 (counterexample): the label is not "the remainder of the filename
after the prefix with one separator character stripped".  Line 137 uses
`file[0].replace(prefix, "")`, which removes EVERY occurrence of the
prefix: for the file `reckless.reckless` under prefix `reckless` (a user
who names their seed "reckless") the claimed label is `reckless`, but the
code computes `"."` and strips its first character, presenting the empty
label instead. -/
theorem select_file_label_not_remainder :
    select_file_entries ["reckless.reckless"] "reckless" = [("reckless.reckless", "")] ∧
    listRecordsSpec ["reckless.reckless"] "reckless" = [("reckless.reckless", "reckless")] ∧
    ("" : String) ≠ "reckless" := by
  refine ⟨by decide, by decide, by decide⟩

/-- C5 (amended): `select_file` presents exactly the directory entries
whose filename starts with the prefix; each entry's label is the filename
with every occurrence of the prefix removed and then — when the result is
nonempty — its first character stripped, or the literal "Default" when the
result is empty (this coincides with the claimed remainder-after-prefix
rule whenever the prefix occurs only at the start of the filename); the
presented list is sorted; and when no entry matches, the operation fails
with the no-matching-files error (otherwise it returns the user's choice). -/
theorem select_file_entries_spec (fs : List (String × Bytes)) (dir pfx : String)
    (choice : Option String) :
    (∀ q : String × String, q ∈ select_file_entries (ilistdir fs dir) pfx ↔
        q.1 ∈ ilistdir fs dir ∧ pyStartsWith q.1 pfx = true ∧ q.2 = displaynameOf pfx q.1) ∧
    chainLe pairLe (select_file_entries (ilistdir fs dir) pfx) = true ∧
    (select_file fs dir pfx choice = Res.err "\n\nNo matching files found" ↔
        (ilistdir fs dir).filter (fun f => pyStartsWith f pfx) = []) ∧
    ((ilistdir fs dir).filter (fun f => pyStartsWith f pfx) ≠ [] →
        select_file fs dir pfx choice = Res.ok choice) := by
  refine ⟨fun q => ?_, ?_, ?_, ?_⟩
  · rw [select_file_entries, mem_sortLe]
    simp only [List.mem_map, List.mem_filter]
    constructor
    · rintro ⟨f, ⟨hf, hs⟩, rfl⟩
      exact ⟨hf, hs, rfl⟩
    · rintro ⟨h1, h2, h3⟩
      refine ⟨q.1, ⟨h1, h2⟩, ?_⟩
      obtain ⟨a, b⟩ := q
      simp only at h3
      rw [h3]
  · exact chainLe_sortLe pairLe pairLe_total _
  · by_cases h : (ilistdir fs dir).filter (fun f => pyStartsWith f pfx) = []
    · simp [select_file, h]
    · simp [select_file, h]
  · intro h
    simp [select_file, h]

/-- C5 (witness for `select_file_entries_spec`): the conjuncts
instantiated at a concrete one-file directory. -/
theorem select_file_entries_spec_witness :
    (("reckless.alice", "alice")
        ∈ select_file_entries (ilistdir [("/flash/reckless.alice", [97])] "/flash")
          "reckless") ∧
    chainLe pairLe
        (select_file_entries (ilistdir [("/flash/reckless.alice", [97])] "/flash")
          "reckless") = true ∧
    select_file [("/flash/reckless.alice", [97])] "/flash" "reckless" (some "reckless.alice")
      = Res.ok (some "reckless.alice") :=
  ⟨((select_file_entries_spec [("/flash/reckless.alice", [97])] "/flash" "reckless"
        (some "reckless.alice")).1 ("reckless.alice", "alice")).mpr (by decide),
   (select_file_entries_spec [("/flash/reckless.alice", [97])] "/flash" "reckless"
        (some "reckless.alice")).2.1,
   (select_file_entries_spec [("/flash/reckless.alice", [97])] "/flash" "reckless"
        (some "reckless.alice")).2.2.2 (by decide)⟩

/-- C3: after writing the encrypted blob, `save_mnemonic` reports success
(Python `True`) exactly when the verification read-back — re-loading and
decrypting the just-written file (line 90) — succeeds; if the read-back
decryption fails, the raised error propagates and the save is reported as
a failure, never as success.  Stated for every environment, state, label,
root and overwrite answer on the non-cancelled path. -/
theorem save_readback_gates_success (env : Env) (st : St) (fn m : String) (p : PathObj)
    (ow : Bool) (hl : st.locked = false) (hm : st.mnemonic = some m)
    (hsd : p.value = env.sdpath → st.sdPresent = true)
    (how : file_exists st.fs (p.value ++ "/" ++ (( fileprefix env p) ++ "." ++ fn)) = true →
      ow = true) :
    (save_mnemonic env st fn (some p) none ow).1 = Res.ok (some true) ↔
      ∃ d, env.decrypt env.encSecret (env.encrypt env.encSecret m) = some d := by
  by_cases hsdv : p.value = env.sdpath
  · have hpres := hsd hsdv
    have hmountAll : ∀ s : St, mountIfSD env s p.value =
        (if s.sdPresent = false then (Res.err "SD card is not present", s)
         else (Res.ok (), { s with mounted := true })) := by
      intro s; simp [mountIfSD, hsdv]
    have hunmAll : ∀ s : St, unmountIfSD env s p.value = { s with mounted := false } := by
      intro s; simp [unmountIfSD, hsdv]
    by_cases hex :
        file_exists st.fs (p.value ++ "/" ++ (( fileprefix env p) ++ "." ++ fn)) = true
    · have how' := how hex
      cases hdec : env.decrypt env.encSecret (env.encrypt env.encSecret m) with
      | none =>
        simp [save_mnemonic, hl, hm, hmountAll, hpres, hex, how', save_write, hunmAll,
          load_mnemonic, load_mnemonic_file, file_exists_fsSet, fsGet_fsSet, hdec]
      | some d =>
        simp [save_mnemonic, hl, hm, hmountAll, hpres, hex, how', save_write, hunmAll,
          load_mnemonic, load_mnemonic_file, file_exists_fsSet, fsGet_fsSet, hdec]
    · cases hdec : env.decrypt env.encSecret (env.encrypt env.encSecret m) with
      | none =>
        simp [save_mnemonic, hl, hm, hmountAll, hpres, hex, save_write, hunmAll,
          load_mnemonic, load_mnemonic_file, file_exists_fsSet, fsGet_fsSet, hdec]
      | some d =>
        simp [save_mnemonic, hl, hm, hmountAll, hpres, hex, save_write, hunmAll,
          load_mnemonic, load_mnemonic_file, file_exists_fsSet, fsGet_fsSet, hdec]
  · have hmountAll : ∀ s : St, mountIfSD env s p.value = (Res.ok (), s) := by
      intro s; simp [mountIfSD, hsdv]
    have hunmAll : ∀ s : St, unmountIfSD env s p.value = s := by
      intro s; simp [unmountIfSD, hsdv]
    by_cases hex :
        file_exists st.fs (p.value ++ "/" ++ (( fileprefix env p) ++ "." ++ fn)) = true
    · have how' := how hex
      cases hdec : env.decrypt env.encSecret (env.encrypt env.encSecret m) with
      | none =>
        simp [save_mnemonic, hl, hm, hmountAll, hex, how', save_write, hunmAll,
          load_mnemonic, load_mnemonic_file, file_exists_fsSet, fsGet_fsSet, hdec]
      | some d =>
        simp [save_mnemonic, hl, hm, hmountAll, hex, how', save_write, hunmAll,
          load_mnemonic, load_mnemonic_file, file_exists_fsSet, fsGet_fsSet, hdec]
    · cases hdec : env.decrypt env.encSecret (env.encrypt env.encSecret m) with
      | none =>
        simp [save_mnemonic, hl, hm, hmountAll, hex, save_write, hunmAll,
          load_mnemonic, load_mnemonic_file, file_exists_fsSet, fsGet_fsSet, hdec]
      | some d =>
        simp [save_mnemonic, hl, hm, hmountAll, hex, save_write, hunmAll,
          load_mnemonic, load_mnemonic_file, file_exists_fsSet, fsGet_fsSet, hdec]

/-- C3 (witness for `save_readback_gates_success`): a concrete save to
flash under the invertible AEAD of `envC`. -/
theorem save_readback_gates_success_witness :
    (save_mnemonic envC stFlash "carol" (some { value := "/flash", isFlashObj := true })
        none false).1 = Res.ok (some true) ↔
      ∃ d, envC.decrypt envC.encSecret (envC.encrypt envC.encSecret "abandon ability")
        = some d :=
  save_readback_gates_success envC stFlash "carol" "abandon ability"
    { value := "/flash", isFlashObj := true } false (by decide) (by decide) (by decide)
    (by decide)

/-- C4: round trip.  Under the assumption that the authenticated-encryption
primitive decrypts its own output to the encrypted plaintext (`hrt`), a
save that completes successfully is followed by a load of the same record
that succeeds and yields exactly the original mnemonic. -/
theorem save_then_load_roundtrip (env : Env) (st : St) (fn m : String) (p : PathObj)
    (ow : Bool) (hl : st.locked = false) (hm : st.mnemonic = some m)
    (hsd : p.value = env.sdpath → st.sdPresent = true)
    (how : file_exists st.fs (p.value ++ "/" ++ (( fileprefix env p) ++ "." ++ fn)) = true →
      ow = true)
    (hrt : env.decrypt env.encSecret (env.encrypt env.encSecret m) = some m) :
    (save_mnemonic env st fn (some p) none ow).1 = Res.ok (some true) ∧
    (load_mnemonic env (save_mnemonic env st fn (some p) none ow).2 (some p) none
        (some (( fileprefix env p) ++ "." ++ fn)) none).1 = Res.ok (some true) ∧
    (load_mnemonic env (save_mnemonic env st fn (some p) none ow).2 (some p) none
        (some (( fileprefix env p) ++ "." ++ fn)) none).2.mnemonic = some m := by
  by_cases hsdv : p.value = env.sdpath
  · have hpres := hsd hsdv
    have hmountAll : ∀ s : St, mountIfSD env s p.value =
        (if s.sdPresent = false then (Res.err "SD card is not present", s)
         else (Res.ok (), { s with mounted := true })) := by
      intro s; simp [mountIfSD, hsdv]
    have hunmAll : ∀ s : St, unmountIfSD env s p.value = { s with mounted := false } := by
      intro s; simp [unmountIfSD, hsdv]
    by_cases hex :
        file_exists st.fs (p.value ++ "/" ++ (( fileprefix env p) ++ "." ++ fn)) = true
    · have how' := how hex
      simp [save_mnemonic, hl, hm, hmountAll, hpres, hex, how', save_write, hunmAll,
        load_mnemonic, load_mnemonic_file, file_exists_fsSet, fsGet_fsSet, hrt]
    · simp [save_mnemonic, hl, hm, hmountAll, hpres, hex, save_write, hunmAll,
        load_mnemonic, load_mnemonic_file, file_exists_fsSet, fsGet_fsSet, hrt]
  · have hmountAll : ∀ s : St, mountIfSD env s p.value = (Res.ok (), s) := by
      intro s; simp [mountIfSD, hsdv]
    have hunmAll : ∀ s : St, unmountIfSD env s p.value = s := by
      intro s; simp [unmountIfSD, hsdv]
    by_cases hex :
        file_exists st.fs (p.value ++ "/" ++ (( fileprefix env p) ++ "." ++ fn)) = true
    · have how' := how hex
      simp [save_mnemonic, hl, hm, hmountAll, hex, how', save_write, hunmAll,
        load_mnemonic, load_mnemonic_file, file_exists_fsSet, fsGet_fsSet, hrt]
    · simp [save_mnemonic, hl, hm, hmountAll, hex, save_write, hunmAll,
        load_mnemonic, load_mnemonic_file, file_exists_fsSet, fsGet_fsSet, hrt]

/-- C4 (witness for `save_then_load_roundtrip`): concrete save to flash
followed by a load of the just-written record. -/
theorem save_then_load_roundtrip_witness :
    (save_mnemonic envC stFlash "carol" (some { value := "/flash", isFlashObj := true })
        none false).1 = Res.ok (some true) ∧
    (load_mnemonic envC
        (save_mnemonic envC stFlash "carol" (some { value := "/flash", isFlashObj := true })
          none false).2
        (some { value := "/flash", isFlashObj := true }) none
        (some (( fileprefix envC { value := "/flash", isFlashObj := true }) ++ "." ++ "carol"))
        none).1 = Res.ok (some true) ∧
    (load_mnemonic envC
        (save_mnemonic envC stFlash "carol" (some { value := "/flash", isFlashObj := true })
          none false).2
        (some { value := "/flash", isFlashObj := true }) none
        (some (( fileprefix envC { value := "/flash", isFlashObj := true }) ++ "." ++ "carol"))
        none).2.mnemonic = some "abandon ability" :=
  save_then_load_roundtrip envC stFlash "carol" "abandon ability"
    { value := "/flash", isFlashObj := true } false (by decide) (by decide) (by decide)
    (by decide) (by decide)

/-- C7: overwrite guard.  When the target record file already exists:
declining the overwrite prompt makes `save_mnemonic` return Python `None`
(cancelled) with the filesystem — in particular the existing file's bytes —
unchanged; confirming makes it replace the file's content with the new
encrypted blob. -/
theorem save_overwrite_guard (env : Env) (st : St) (fn m : String) (p : PathObj)
    (hl : st.locked = false) (hm : st.mnemonic = some m)
    (hsd : p.value = env.sdpath → st.sdPresent = true)
    (hex : file_exists st.fs (p.value ++ "/" ++ (( fileprefix env p) ++ "." ++ fn)) = true) :
    (save_mnemonic env st fn (some p) none false).1 = Res.ok none ∧
    (save_mnemonic env st fn (some p) none false).2.fs = st.fs ∧
    fsGet (save_mnemonic env st fn (some p) none true).2.fs
        (p.value ++ "/" ++ (( fileprefix env p) ++ "." ++ fn))
      = some (env.encrypt env.encSecret m) := by
  by_cases hsdv : p.value = env.sdpath
  · have hpres := hsd hsdv
    have hmountAll : ∀ s : St, mountIfSD env s p.value =
        (if s.sdPresent = false then (Res.err "SD card is not present", s)
         else (Res.ok (), { s with mounted := true })) := by
      intro s; simp [mountIfSD, hsdv]
    have hunmAll : ∀ s : St, unmountIfSD env s p.value = { s with mounted := false } := by
      intro s; simp [unmountIfSD, hsdv]
    refine ⟨?_, ?_, ?_⟩
    · simp [save_mnemonic, hl, hm, hmountAll, hpres, hex]
    · simp [save_mnemonic, hl, hm, hmountAll, hpres, hex]
    · cases hdec : env.decrypt env.encSecret (env.encrypt env.encSecret m) with
      | none =>
        simp [save_mnemonic, hl, hm, hmountAll, hpres, hex, save_write, hunmAll,
          load_mnemonic, load_mnemonic_file, file_exists_fsSet, fsGet_fsSet, hdec]
      | some d =>
        simp [save_mnemonic, hl, hm, hmountAll, hpres, hex, save_write, hunmAll,
          load_mnemonic, load_mnemonic_file, file_exists_fsSet, fsGet_fsSet, hdec]
  · have hmountAll : ∀ s : St, mountIfSD env s p.value = (Res.ok (), s) := by
      intro s; simp [mountIfSD, hsdv]
    have hunmAll : ∀ s : St, unmountIfSD env s p.value = s := by
      intro s; simp [unmountIfSD, hsdv]
    refine ⟨?_, ?_, ?_⟩
    · simp [save_mnemonic, hl, hm, hmountAll, hex]
    · simp [save_mnemonic, hl, hm, hmountAll, hex]
    · cases hdec : env.decrypt env.encSecret (env.encrypt env.encSecret m) with
      | none =>
        simp [save_mnemonic, hl, hm, hmountAll, hex, save_write, hunmAll,
          load_mnemonic, load_mnemonic_file, file_exists_fsSet, fsGet_fsSet, hdec]
      | some d =>
        simp [save_mnemonic, hl, hm, hmountAll, hex, save_write, hunmAll,
          load_mnemonic, load_mnemonic_file, file_exists_fsSet, fsGet_fsSet, hdec]

/-- C7 (witness for `save_overwrite_guard`): the existing record
`/flash/reckless.alice` in `stFlash`. -/
theorem save_overwrite_guard_witness :
    (save_mnemonic envC stFlash "alice" (some { value := "/flash", isFlashObj := true })
        none false).1 = Res.ok none ∧
    (save_mnemonic envC stFlash "alice" (some { value := "/flash", isFlashObj := true })
        none false).2.fs = stFlash.fs ∧
    fsGet (save_mnemonic envC stFlash "alice" (some { value := "/flash", isFlashObj := true })
        none true).2.fs
        ("/flash" ++ "/" ++ ("reckless" ++ "." ++ "alice"))
      = some (envC.encrypt envC.encSecret "abandon ability") :=
  save_overwrite_guard envC stFlash "alice" "abandon ability"
    { value := "/flash", isFlashObj := true } (by decide) (by decide) (by decide) (by decide)

/-- C10: every successful `load_mnemonic` (first conjunct; `fileArg` given,
covering the read-back that `save_mnemonic` performs) ends by calling
`set_mnemonic(data.decode(), "")`: the session mnemonic becomes the
decrypted file content and the passphrase becomes the empty string.
Consequently (second conjunct) a successful `save_mnemonic` resets the
session passphrase to `""` as a side effect of its verification
read-back. -/
theorem load_sets_mnemonic_save_resets_passphrase :
    (∀ (env : Env) (st : St) (p : PathObj) (f : String) (blob : Bytes) (d : String),
      st.locked = false → (p.value = env.sdpath → st.sdPresent = true) →
      fsGet st.fs (p.value ++ "/" ++ f) = some blob →
      env.decrypt env.encSecret blob = some d →
      (load_mnemonic env st (some p) none (some f) none).1 = Res.ok (some true) ∧
      (load_mnemonic env st (some p) none (some f) none).2.mnemonic = some d ∧
      (load_mnemonic env st (some p) none (some f) none).2.passphrase = "") ∧
    (∀ (env : Env) (st : St) (fn m : String) (p : PathObj) (ow : Bool),
      st.locked = false → st.mnemonic = some m →
      (p.value = env.sdpath → st.sdPresent = true) →
      (file_exists st.fs (p.value ++ "/" ++ (( fileprefix env p) ++ "." ++ fn)) = true →
        ow = true) →
      env.decrypt env.encSecret (env.encrypt env.encSecret m) = some m →
      (save_mnemonic env st fn (some p) none ow).1 = Res.ok (some true) ∧
      (save_mnemonic env st fn (some p) none ow).2.passphrase = "") := by
  constructor
  · intro env st p f blob d hl hsd hget hdec
    by_cases hsdv : p.value = env.sdpath
    · have hpres := hsd hsdv
      have hmountAll : ∀ s : St, mountIfSD env s p.value =
          (if s.sdPresent = false then (Res.err "SD card is not present", s)
           else (Res.ok (), { s with mounted := true })) := by
        intro s; simp [mountIfSD, hsdv]
      have hunmAll : ∀ s : St, unmountIfSD env s p.value = { s with mounted := false } := by
        intro s; simp [unmountIfSD, hsdv]
      simp [load_mnemonic, hl, hmountAll, hpres, load_mnemonic_file, file_exists, hget,
        hdec, hunmAll]
    · have hmountAll : ∀ s : St, mountIfSD env s p.value = (Res.ok (), s) := by
        intro s; simp [mountIfSD, hsdv]
      have hunmAll : ∀ s : St, unmountIfSD env s p.value = s := by
        intro s; simp [unmountIfSD, hsdv]
      simp [load_mnemonic, hl, hmountAll, load_mnemonic_file, file_exists, hget, hdec,
        hunmAll]
  · intro env st fn m p ow hl hm hsd how hrt
    by_cases hsdv : p.value = env.sdpath
    · have hpres := hsd hsdv
      have hmountAll : ∀ s : St, mountIfSD env s p.value =
          (if s.sdPresent = false then (Res.err "SD card is not present", s)
           else (Res.ok (), { s with mounted := true })) := by
        intro s; simp [mountIfSD, hsdv]
      have hunmAll : ∀ s : St, unmountIfSD env s p.value = { s with mounted := false } := by
        intro s; simp [unmountIfSD, hsdv]
      by_cases hex :
          file_exists st.fs (p.value ++ "/" ++ (( fileprefix env p) ++ "." ++ fn)) = true
      · have how' := how hex
        simp [save_mnemonic, hl, hm, hmountAll, hpres, hex, how', save_write, hunmAll,
          load_mnemonic, load_mnemonic_file, file_exists_fsSet, fsGet_fsSet, hrt]
      · simp [save_mnemonic, hl, hm, hmountAll, hpres, hex, save_write, hunmAll,
          load_mnemonic, load_mnemonic_file, file_exists_fsSet, fsGet_fsSet, hrt]
    · have hmountAll : ∀ s : St, mountIfSD env s p.value = (Res.ok (), s) := by
        intro s; simp [mountIfSD, hsdv]
      have hunmAll : ∀ s : St, unmountIfSD env s p.value = s := by
        intro s; simp [unmountIfSD, hsdv]
      by_cases hex :
          file_exists st.fs (p.value ++ "/" ++ (( fileprefix env p) ++ "." ++ fn)) = true
      · have how' := how hex
        simp [save_mnemonic, hl, hm, hmountAll, hex, how', save_write, hunmAll,
          load_mnemonic, load_mnemonic_file, file_exists_fsSet, fsGet_fsSet, hrt]
      · simp [save_mnemonic, hl, hm, hmountAll, hex, save_write, hunmAll,
          load_mnemonic, load_mnemonic_file, file_exists_fsSet, fsGet_fsSet, hrt]

/-- C10 (witness for `load_sets_mnemonic_save_resets_passphrase`):
loading `/flash/reckless.alice` (blob `[97]`, decrypting to `"a"`) and
saving a new record `carol`, both from `stFlash` whose passphrase is
`"pp"`. -/
theorem load_sets_mnemonic_save_resets_passphrase_witness :
    ((load_mnemonic envC stFlash (some { value := "/flash", isFlashObj := true }) none
        (some "reckless.alice") none).1 = Res.ok (some true) ∧
      (load_mnemonic envC stFlash (some { value := "/flash", isFlashObj := true }) none
        (some "reckless.alice") none).2.mnemonic = some "a" ∧
      (load_mnemonic envC stFlash (some { value := "/flash", isFlashObj := true }) none
        (some "reckless.alice") none).2.passphrase = "") ∧
    ((save_mnemonic envC stFlash "carol" (some { value := "/flash", isFlashObj := true })
        none false).1 = Res.ok (some true) ∧
      (save_mnemonic envC stFlash "carol" (some { value := "/flash", isFlashObj := true })
        none false).2.passphrase = "") :=
  ⟨load_sets_mnemonic_save_resets_passphrase.1 envC stFlash
      { value := "/flash", isFlashObj := true } "reckless.alice" [97] "a" (by decide)
      (by decide) (by decide) (by decide),
   load_sets_mnemonic_save_resets_passphrase.2 envC stFlash "carol" "abandon ability"
      { value := "/flash", isFlashObj := true } false (by decide) (by decide) (by decide)
      (by decide) (by decide)⟩

end SDKeyStore

